import Mathlib

/-!
Verification of the waitlist enrollment + referral + drip-campaign logic of
the newsletter-waitlist repository, as a shallow embedding in Lean 4.

Sources embedded here:
  * src/drizzle/schema.ts           — table shapes (waitlist_entries,
    referral_tracking, email_sequence_tracking, subscriber_preferences)
  * src/server/payment.ts           — getNextQueuePosition,
    createCheckoutSession (metadata construction), handlePaymentSuccess,
    addToWaitlistWithoutPayment
  * src/unnamed/part_007 (referral.ts)          — generateReferralCode,
    processReferral
  * src/unnamed/part_005 (referralTracking.ts)  — verifyReferralCode,
    recordReferral
  * src/server/emailSequence.ts     — emailSequenceConfig, sendEmailsForDay,
    processEmailSequence
  * src/server/email.ts             — sendEmail and friends: every send
    function catches its own errors and returns a `success` flag, it never
    throws (email.ts lines 59-91); sends are modelled as appended log events
    whose success bit comes from the environment.

Modelling conventions:
  * The MySQL database is a `Db` record of lists, one per table, plus the
    AUTO_INCREMENT counters.  Row ids are `Nat`, timestamps are `Int`
    (milliseconds since epoch, as in JS `Date.now()`).
  * Nullable text columns are `Option String`; JS truthiness of a nullable
    string (`!x`, `x || d`) is modelled by `truthyStr` / `jsOrStr`: both
    `null`/absent and the empty string are falsy.
  * `isVip` / `successfulReferrals` are nullable with defaults false / 0 in
    the schema and every read in the TS code coalesces them (`|| false`,
    `|| 0`), so they are modelled directly as `Bool` / `Nat`.
  * Throwing code returns `Except String`; code that catches internally
    returns plain values.
  * Nondeterministic inputs of one operation call (wall clock, nanoid token,
    the referral-tracking code minted by `recordReferral`, availability of
    the separate `getDb()` handle inside referral.ts, success of the UPDATE
    there, SendGrid delivery outcomes) are packaged in an `Env` record the
    caller supplies per call.
  * Columns never read by the verified operations (updatedAt,
    boardingPassSent, rewardClaimed, engagement timestamps, email frequency
    and opt-in preference fields, Stripe amount/payment-id plumbing inside
    the rendered email bodies) are omitted.
-/

/-! ### Helper lemmas -/

/-! ### Claim theorems -/

deriving instance DecidableEq for Except

/-- Payment status enum of the waitlist_entries table (schema.ts line 37). -/
inductive PaymentStatus where
  | pending
  | completed
  | failed
  | skipped
deriving DecidableEq, Repr

/-- One row of waitlist_entries (schema.ts lines 32-43 plus the
0003_sudden_salo.sql migration adding referralCode, isVip,
successfulReferrals). -/
structure WaitlistEntry where
  id : Nat
  email : String
  firstName : String
  queuePosition : Nat
  paymentStatus : PaymentStatus
  referralCode : Option String
  isVip : Bool
  successfulReferrals : Nat
  createdAt : Int
deriving DecidableEq, Repr

/-- One row of referral_tracking (schema.ts lines 90-99). -/
structure ReferralRecord where
  id : Nat
  referrerId : Nat
  referredId : Option Nat
  referredEmail : String
  referralCode : String
  joinedAt : Option Int
deriving DecidableEq, Repr

/-- Email template types of the drip sequence
(schema.ts line 56, emailSequence.ts lines 10-39). -/
inductive EmailType where
  | welcome
  | content_preview
  | boarding_reminder
  | exclusive_offer
deriving DecidableEq, Repr

/-- One row of email_sequence_tracking (schema.ts lines 52-63; the auto id
and engagement columns are never read by the verified operations and are
omitted). -/
structure TrackingRecord where
  waitlistEntryId : Nat
  sequenceDay : Nat
  emailType : EmailType
  sentAt : Option Int
deriving DecidableEq, Repr

/-- One row of subscriber_preferences (schema.ts lines 72-81); only
waitlistEntryId and unsubscribed are read by the scheduler. -/
structure SubscriberPrefs where
  waitlistEntryId : Nat
  unsubscribed : Bool
deriving DecidableEq, Repr

/-- Kinds of outbound transactional email dispatched by the embedded code
(email.ts / emailSequence.ts). -/
inductive EmailKind where
  | receipt
  | boardingPass
  | internalNote
  | seqMail (t : EmailType)
deriving DecidableEq, Repr

/-- One observable send attempt: every send function of email.ts catches its
own errors and reports a success flag (email.ts lines 59-91), recorded
here. -/
structure EmailEvent where
  kind : EmailKind
  toAddr : String
  success : Bool
deriving DecidableEq, Repr

/-- The persistent store plus the log of outbound email attempts. -/
structure Db where
  entries : List WaitlistEntry
  referrals : List ReferralRecord
  tracking : List TrackingRecord
  prefs : List SubscriberPrefs
  nextEntryId : Nat
  nextReferralId : Nat
  emailLog : List EmailEvent
deriving DecidableEq, Repr

/-- The empty database: MySQL AUTO_INCREMENT starts at 1. -/
def emptyDb : Db :=
  { entries := [], referrals := [], tracking := [], prefs := []
    nextEntryId := 1, nextReferralId := 1, emailLog := [] }

/-- JS truthiness of a nullable string: null/undefined and "" are falsy. -/
def truthyStr : Option String → Bool
  | none => false
  | some s => !(s == "")

/-- JS `x || d` for a nullable string x and default d. -/
def jsOrStr (o : Option String) (d : String) : String :=
  match o with
  | none => d
  | some s => if s == "" then d else s

/-- JS `x || undefined` for a nullable string: collapses "" to undefined
(payment.ts line 89). -/
def jsOrUndef (o : Option String) : Option String :=
  match o with
  | none => none
  | some s => if s == "" then none else some s

/-- JS String.prototype.toUpperCase, modelled as a per-character map
(nanoid's alphabet is ASCII, where this matches exactly). -/
def jsToUpper (s : String) : String := ⟨s.data.map Char.toUpper⟩

/-- JS `n || d` on numbers: 0 is falsy (payment.ts line 124). -/
def jsOrNat (n d : Nat) : Nat :=
  if n == 0 then d else n

/-- Env of one operation call: wall clock, minted tokens, and the failure
switches of the best-effort collaborators. -/
structure Env where
  now : Int
  freshCode : String
  refDbAvailable : Bool
  refUpdateOk : Bool
  refRecordCode : String
  receiptOk : Bool
  boardingOk : Bool
  notifyOk : Bool

/-- An Env with every collaborator healthy. -/
def okEnv : Env :=
  { now := 0, freshCode := "AB12CD34", refDbAvailable := true
    refUpdateOk := true, refRecordCode := "REF-0-XYZ", receiptOk := true
    boardingOk := true, notifyOk := true }

/-- getNextQueuePosition's SELECT ... ORDER BY queuePosition DESC LIMIT 1:
the maximum queuePosition in the table, 0 when empty (payment.ts line 24
coalesces the absent row with `|| 0`). -/
def maxQueuePosition (entries : List WaitlistEntry) : Nat :=
  entries.foldr (fun e m => max e.queuePosition m) 0

/-- payment.ts lines 14-25: one more than the current maximum assigned
queue position. -/
def getNextQueuePosition (db : Db) : Nat :=
  maxQueuePosition db.entries + 1

/-- referral.ts (src/unnamed/part_007) lines 9-40, generateReferralCode:
returns the existing code when the row has a truthy one, else mints
`nanoid(8).toUpperCase()` (the raw token comes from `env.freshCode`) and
persists it with an UPDATE.  `getDb()` returning null yields null
(line 11); any thrown error is caught and yields null (lines 36-39) — the
UPDATE failing is the `env.refUpdateOk = false` switch, in which case the
store is unchanged. -/
def generateReferralCode (env : Env) (db : Db) (waitlistEntryId : Nat) :
    Option String × Db :=
  if env.refDbAvailable = false then (none, db)
  else
    match db.entries.find? (fun e => e.id == waitlistEntryId) with
    | some entry =>
      if truthyStr entry.referralCode then (entry.referralCode, db)
      else
        if env.refUpdateOk then
          let referralCode := jsToUpper env.freshCode
          (some referralCode,
            { db with entries := db.entries.map (fun x =>
                if x.id == waitlistEntryId then
                  { x with referralCode := some referralCode } else x) })
        else (none, db)
    | none =>
      -- the SELECT matched no row: the code still mints a token and issues
      -- an UPDATE whose WHERE clause matches nothing
      if env.refUpdateOk then
        let referralCode := jsToUpper env.freshCode
        (some referralCode,
          { db with entries := db.entries.map (fun x =>
              if x.id == waitlistEntryId then
                { x with referralCode := some referralCode } else x) })
      else (none, db)

/-- referralTracking.ts (src/unnamed/part_005) lines 8-19: the entry whose
referralCode column equals the given code (SQL `=` never matches NULL). -/
def verifyReferralCode (db : Db) (referralCode : String) :
    Option WaitlistEntry :=
  db.entries.find? (fun e => e.referralCode == some referralCode)

/-- Result shape of recordReferral (part_005 line 28). -/
structure RecordReferralResult where
  success : Bool
  referrerPromotedToVip : Bool
deriving DecidableEq, Repr

/-- referralTracking.ts (src/unnamed/part_005) lines 24-86, recordReferral:
throws on an unknown code; duplicate (referrer, referredEmail) pair is a
`{success:false}` no-op; otherwise inserts one ReferralRecord carrying a
freshly minted `REF-...` code (supplied as `env.refRecordCode`) and updates
the referrer row: counter + 1, VIP set when the new counter reaches 3 and
the referrer was not already VIP. -/
def recordReferral (env : Env) (db : Db) (referralCode newUserEmail : String)
    (newUserId : Nat) : Except String (RecordReferralResult × Db) :=
  match verifyReferralCode db referralCode with
  | none => .error "Invalid referral code"
  | some referrer =>
    match db.referrals.find? (fun r =>
        r.referrerId == referrer.id && r.referredEmail == newUserEmail) with
    | some _ => .ok (⟨false, false⟩, db)
    | none =>
      let newRecord : ReferralRecord :=
        { id := db.nextReferralId, referrerId := referrer.id
          referredId := some newUserId, referredEmail := newUserEmail
          referralCode := env.refRecordCode, joinedAt := some env.now }
      let successfulReferrals := referrer.successfulReferrals + 1
      let shouldPromoteToVip :=
        decide (3 ≤ successfulReferrals) && !referrer.isVip
      let db' : Db :=
        { db with
          referrals := db.referrals ++ [newRecord]
          nextReferralId := db.nextReferralId + 1
          entries := db.entries.map (fun x =>
            if x.id == referrer.id then
              { x with successfulReferrals := successfulReferrals
                       isVip := if shouldPromoteToVip then true else x.isVip }
            else x) }
      .ok (⟨true, shouldPromoteToVip⟩, db')

/-- referral.ts (src/unnamed/part_007) lines 71-128, processReferral: looks
the code up in referral_tracking, stamps referredId/joinedAt, then sets the
referrer's counter to old + 1 and `isVip := true` unconditionally (line 114,
"Automatically make referrer VIP").  Returns false when the code matches no
tracking record. -/
def processReferral (env : Env) (db : Db) (referralCode : String)
    (newSubscriberId : Nat) : Bool × Db :=
  match db.referrals.find? (fun r => r.referralCode == referralCode) with
  | none => (false, db)
  | some ref =>
    let db1 : Db :=
      { db with referrals := db.referrals.map (fun r =>
          if r.id == ref.id then
            { r with referredId := some newSubscriberId
                     joinedAt := some env.now } else r) }
    match db1.entries.find? (fun e => e.id == ref.referrerId) with
    | none => (true, db1)
    | some referrer =>
      let newCount := referrer.successfulReferrals + 1
      (true,
        { db1 with entries := db1.entries.map (fun x =>
            if x.id == ref.referrerId then
              { x with successfulReferrals := newCount, isVip := true }
            else x) })

/-- email.ts lines 96-127, sendPaymentReceiptEmail: catches internally and
reports a success flag, never throws; modelled as a log append. -/
def sendPaymentReceiptEmail (env : Env) (db : Db) (email : String) : Db :=
  { db with emailLog := db.emailLog ++ [⟨.receipt, email, env.receiptOk⟩] }

/-- email.ts lines 132-161, sendBoardingPassEmail: same contract. -/
def sendBoardingPassEmail (env : Env) (db : Db) (email : String) : Db :=
  { db with emailLog := db.emailLog ++ [⟨.boardingPass, email, env.boardingOk⟩] }

/-- email.ts lines 6-45, sendInternalNotification: same contract (the fixed
admin recipients are not tracked, only the subject's subject user). -/
def sendInternalNotification (env : Env) (db : Db) (email : String) : Db :=
  { db with emailLog := db.emailLog ++ [⟨.internalNote, email, env.notifyOk⟩] }

/-- The Stripe checkout session as later retrieved by handlePaymentSuccess:
the provider echoes the customer email and the metadata bag stored at
session creation.  `metaQueuePosition` models
`parseInt(metadata.queuePosition, 10)` of the stored decimal string as the
numeric value itself; absence of the key is `none` (the code defaults it
with `metadata.queuePosition || "1"`, payment.ts line 88). -/
structure CheckoutSession where
  customerEmail : Option String
  metaEmail : Option String
  metaFirstName : Option String
  metaQueuePosition : Option Nat
  metaReferralCode : Option String
deriving DecidableEq, Repr

/-- Result row returned by both signup paths (payment.ts lines 79, 169). -/
structure SignupResult where
  email : String
  queuePosition : Nat
  referralCode : String
  isVip : Bool
  successfulReferrals : Nat
deriving DecidableEq, Repr

/-- payment.ts lines 130-144: the referral carried in the session metadata
is applied via recordReferral inside try/catch; a thrown error is logged
and the state as of the throw is kept (recordReferral throws before any
write). -/
def applyReferral (env : Env) (db : Db) (referralCode newUserEmail : String)
    (newUserId : Nat) : Db :=
  match recordReferral env db referralCode newUserEmail newUserId with
  | .ok (_, db') => db'
  | .error _ => db

/-- payment.ts lines 77-161, handlePaymentSuccess: throws when
customer_email or metadata.email is falsy; returns the existing row's data
when the email already has an entry (idempotency guard, lines 94-109);
otherwise inserts the entry as completed, mints its referral code, applies
a metadata-carried referral best-effort, and dispatches the receipt email
and the internal notification. -/
def handlePaymentSuccess (env : Env) (s : CheckoutSession) (db : Db) :
    Except String (SignupResult × Db) :=
  if !(truthyStr s.customerEmail) || !(truthyStr s.metaEmail) then
    .error "Missing email in session metadata"
  else
    let email := jsOrStr s.metaEmail ""
    let firstName := jsOrStr s.metaFirstName ""
    let queuePosition := s.metaQueuePosition.getD 1
    let referralCodeFromSession := jsOrUndef s.metaReferralCode
    match db.entries.find? (fun e => e.email == email) with
    | some existing =>
      .ok ({ email := existing.email
             queuePosition := existing.queuePosition
             referralCode := (existing.referralCode).getD ""
             isVip := existing.isVip
             successfulReferrals := existing.successfulReferrals }, db)
    | none =>
      let entry : WaitlistEntry :=
        { id := db.nextEntryId, email := email, firstName := firstName
          queuePosition := queuePosition, paymentStatus := .completed
          referralCode := none, isVip := false, successfulReferrals := 0
          createdAt := env.now }
      let db1 : Db :=
        { db with entries := db.entries ++ [entry]
                  nextEntryId := db.nextEntryId + 1 }
      let lastInsertId := jsOrNat db.nextEntryId queuePosition
      let genResult := generateReferralCode env db1 lastInsertId
      let referralCode := genResult.1
      let db2 := genResult.2
      let db3 :=
        match referralCodeFromSession with
        | some code => applyReferral env db2 code email lastInsertId
        | none => db2
      let db4 := sendPaymentReceiptEmail env db3 email
      let db5 := sendInternalNotification env db4 email
      .ok ({ email := email, queuePosition := queuePosition
             referralCode := referralCode.getD ""
             isVip := false, successfulReferrals := 0 }, db5)

/-- payment.ts lines 30-72, createCheckoutSession: computes the next queue
position optimistically and stores `{email, firstName, queuePosition,
referralCode || ""}` as session metadata; this is the session as later
retrieved by the provider. -/
def createCheckoutSession (db : Db) (email firstName : String)
    (referralCode : Option String) : CheckoutSession :=
  { customerEmail := some email
    metaEmail := some email
    metaFirstName := some firstName
    metaQueuePosition := some (getNextQueuePosition db)
    metaReferralCode := some (jsOrStr referralCode "") }

/-- payment.ts lines 166-214, addToWaitlistWithoutPayment: idempotency
guard first, then inserts the entry as skipped at the next queue position,
mints its referral code, and dispatches the boarding-pass email and the
internal notification. -/
def addToWaitlistWithoutPayment (env : Env) (email firstName : String)
    (db : Db) : Except String (SignupResult × Db) :=
  match db.entries.find? (fun e => e.email == email) with
  | some existing =>
    .ok ({ email := email
           queuePosition := existing.queuePosition
           referralCode := (existing.referralCode).getD ""
           isVip := existing.isVip
           successfulReferrals := existing.successfulReferrals }, db)
  | none =>
    let queuePosition := getNextQueuePosition db
    let entry : WaitlistEntry :=
      { id := db.nextEntryId, email := email, firstName := firstName
        queuePosition := queuePosition, paymentStatus := .skipped
        referralCode := none, isVip := false, successfulReferrals := 0
        createdAt := env.now }
    let db1 : Db :=
      { db with entries := db.entries ++ [entry]
                nextEntryId := db.nextEntryId + 1 }
    let lastInsertId := jsOrNat db.nextEntryId queuePosition
    let genResult := generateReferralCode env db1 lastInsertId
    let referralCode := genResult.1
    let db2 := genResult.2
    let db3 := sendBoardingPassEmail env db2 email
    let db4 := sendInternalNotification env db3 email
    .ok ({ email := email, queuePosition := queuePosition
           referralCode := referralCode.getD ""
           isVip := false, successfulReferrals := 0 }, db4)

/-- Milliseconds in one day (emailSequence.ts lines 79-80). -/
def dayMs : Int := 24 * 60 * 60 * 1000

/-- One element of emailSequenceConfig: the day offset and the template
type; subject/template/description strings carry no verified logic. -/
structure EmailConfig where
  day : Nat
  type : EmailType
deriving DecidableEq, Repr

/-- emailSequence.ts lines 10-39: the fixed ordered offset table. -/
def emailSequenceConfig : List EmailConfig :=
  [⟨1, .welcome⟩, ⟨3, .content_preview⟩,
   ⟨7, .boarding_reminder⟩, ⟨14, .exclusive_offer⟩]

/-- Environment of one scheduler run: the wall clock and, per recipient and
template type, whether the SendGrid delivery succeeds (email.ts sendEmail
reports this as a flag and never throws, lines 59-91). -/
structure SchedEnv where
  now : Int
  deliverOk : String → EmailType → Bool

/-- emailSequence.ts lines 82-102, the eligibility query of
sendEmailsForDay: entries with `createdAt < now - (day-1)·1d` that have no
tracking record for this email type.  The computed lower bound
`nDaysAgo = now - day·1d` (line 79) never appears in the WHERE clause. -/
def eligibleSubscribers (env : SchedEnv) (db : Db) (config : EmailConfig) :
    List WaitlistEntry :=
  let nDaysAgoPlus1 : Int := env.now - (config.day - 1) * dayMs
  db.entries.filter (fun e =>
    decide (e.createdAt < nDaysAgoPlus1) &&
    (db.tracking.find? (fun t =>
        t.waitlistEntryId == e.id && t.emailType == config.type)).isNone)

/-- emailSequence.ts lines 122-137: render, send, then insert the tracking
record.  sendEmail's success flag is never consulted, so the record is
written regardless of the delivery outcome. -/
def sendAndTrack (env : SchedEnv) (db : Db) (config : EmailConfig)
    (sub : WaitlistEntry) : Db :=
  let success := env.deliverOk sub.email config.type
  { db with
    emailLog := db.emailLog ++ [⟨.seqMail config.type, sub.email, success⟩]
    tracking := db.tracking ++
      [⟨sub.id, config.day, config.type, some env.now⟩] }

/-- emailSequence.ts lines 108-148, the per-subscriber loop body: skip when
a preferences row exists and marks unsubscribed, else send and track. -/
def processSubscriber (env : SchedEnv) (db : Db) (config : EmailConfig)
    (sub : WaitlistEntry) : Db :=
  match db.prefs.find? (fun p => p.waitlistEntryId == sub.id) with
  | some p => if p.unsubscribed then db else sendAndTrack env db config sub
  | none => sendAndTrack env db config sub

/-- emailSequence.ts lines 68-149, sendEmailsForDay: the eligible list is
computed once against the incoming state, then the loop folds the
per-subscriber body over it. -/
def sendEmailsForDay (env : SchedEnv) (db : Db) (config : EmailConfig) : Db :=
  (eligibleSubscribers env db config).foldl
    (fun acc sub => processSubscriber env acc config sub) db

/-- emailSequence.ts lines 45-63, processEmailSequence: one daily run over
the four offset configs in order. -/
def processEmailSequence (env : SchedEnv) (db : Db) : Db :=
  emailSequenceConfig.foldl (sendEmailsForDay env) db

/-- Modelled from the spec (section 4.4): the selection window the spec
prescribes for one offset, `createdAt ∈ [now - offset, now - offset + 1d)`.
Used only to compare the code's eligibility filter against the spec's. -/
def specSelectionWindow (now : Int) (day : Nat) (createdAt : Int) : Bool :=
  decide (now - day * dayMs ≤ createdAt) &&
  decide (createdAt < now - day * dayMs + dayMs)

/-- One completed public signup: the skip-payment path, or the paid path
(createCheckoutSession immediately followed by handlePaymentSuccess on the
session it built). -/
inductive SignupOp where
  | free (email firstName : String)
  | paid (email firstName : String) (referralCode : Option String)
deriving DecidableEq, Repr

/-- The email a signup operation submits. -/
def SignupOp.email : SignupOp → String
  | .free e _ => e
  | .paid e _ _ => e

/-- The paid path end to end: the checkout session is created (reserving
the next queue position in its metadata) and then confirmed. -/
def paidSignup (env : Env) (email firstName : String)
    (referralCode : Option String) (db : Db) :
    Except String (SignupResult × Db) :=
  handlePaymentSuccess env (createCheckoutSession db email firstName referralCode) db

/-- Run one signup operation, keeping only the resulting store. -/
def runSignup (env : Env) (op : SignupOp) (db : Db) : Except String Db :=
  match op with
  | .free e f =>
    match addToWaitlistWithoutPayment env e f db with
    | .ok (_, db') => .ok db'
    | .error msg => .error msg
  | .paid e f r =>
    match paidSignup env e f r db with
    | .ok (_, db') => .ok db'
    | .error msg => .error msg

/-- Run a sequence of signup operations, each with its own environment. -/
def runSignups : List (Env × SignupOp) → Db → Except String Db
  | [], db => .ok db
  | p :: rest, db =>
    match runSignup p.1 p.2 db with
    | .ok db' => runSignups rest db'
    | .error msg => .error msg

/-- The (email, queuePosition) signature of the entries table: both signup
invariants are phrased over it. -/
def entrySig (l : List WaitlistEntry) : List (String × Nat) :=
  l.map (fun x => (x.email, x.queuePosition))

/-- Number of entries carrying a given email. -/
def countEmail (db : Db) (em : String) : Nat :=
  db.entries.countP (fun x => x.email == em)

/-- Concrete signup sequence used to witness C1: a free signup, a paid
signup redeeming the first signup's referral code, and another free
signup. -/
def C1ops : List (Env × SignupOp) :=
  [(okEnv, .free "a@x.com" "Ann"),
   (okEnv, .paid "b@x.com" "Bob" (some "AB12CD34")),
   (okEnv, .free "c@x.com" "Cyd")]

/-- Concrete existing entry used to witness C2. -/
def c2Entry : WaitlistEntry :=
  { id := 1, email := "a@x.com", firstName := "Ann", queuePosition := 1
    paymentStatus := .skipped, referralCode := some "AB12CD34"
    isVip := false, successfulReferrals := 0, createdAt := 0 }

/-- Concrete store holding one entry, used to witness C2. -/
def c2Db : Db :=
  { emptyDb with entries := [c2Entry], nextEntryId := 2 }

/-- Referrer entry with zero successful referrals, not VIP, used in the C3
counterexample. -/
def c3Referrer : WaitlistEntry :=
  { id := 1, email := "a@x.com", firstName := "Ann", queuePosition := 1
    paymentStatus := .skipped, referralCode := some "AB12CD34"
    isVip := false, successfulReferrals := 0, createdAt := 0 }

/-- Pending referral invitation pointing at the referrer above. -/
def c3Record : ReferralRecord :=
  { id := 1, referrerId := 1, referredId := none
    referredEmail := "b@x.com", referralCode := "INVITE1", joinedAt := none }

/-- Store for the C3 counterexample. -/
def c3Db : Db :=
  { emptyDb with
    entries := [c3Referrer]
    referrals := [c3Record]
    nextEntryId := 2
    nextReferralId := 2 }

/-- Store after redeeming the C3 referrer's own code for a new signup. -/
def c3DbAfter : Db :=
  match recordReferral okEnv c3Db "AB12CD34" "d@x.com" 2 with
  | .ok (_, d) => d
  | .error _ => emptyDb

/-- Variant of the C3 referrer that is already VIP with three referrals. -/
def c3Vip : WaitlistEntry :=
  { c3Referrer with isVip := true, successfulReferrals := 3 }

/-- Store holding the already-VIP referrer. -/
def c3VipDb : Db :=
  { emptyDb with
    entries := [c3Vip]
    referrals := [c3Record]
    nextEntryId := 2
    nextReferralId := 2 }

/-- Store after redeeming the VIP referrer's code. -/
def c3VipDbAfter : Db :=
  match recordReferral okEnv c3VipDb "AB12CD34" "d@x.com" 2 with
  | .ok (_, d) => d
  | .error _ => emptyDb

/-- Store after processReferral on the VIP referrer's invitation. -/
def c3VipDbPR : Db := (processReferral okEnv c3VipDb "INVITE1" 2).2

/-- Store after processReferral on the non-VIP referrer's invitation. -/
def c3DbPR : Db := (processReferral okEnv c3Db "INVITE1" 2).2

/-- Scheduler environment with the clock at 0 and all deliveries
succeeding. -/
def c5Env : SchedEnv := { now := 0, deliverOk := fun _ _ => true }

/-- Entry created 30 days before the scheduler run, with no tracking
records at all. -/
def c5Entry : WaitlistEntry :=
  { id := 1, email := "old@x.com", firstName := "Olda", queuePosition := 1
    paymentStatus := .skipped, referralCode := none, isVip := false
    successfulReferrals := 0, createdAt := -(30 * dayMs) }

/-- Store for the C5 failing input. -/
def c5Db : Db := { emptyDb with entries := [c5Entry], nextEntryId := 2 }

/-- Scheduler environment with every SendGrid delivery failing. -/
def c6Env : SchedEnv := { now := 0, deliverOk := fun _ _ => false }

/-- Entry created half a day before the run: eligible for the day-1
welcome email only. -/
def c6Entry : WaitlistEntry :=
  { id := 1, email := "a@x.com", firstName := "Ann", queuePosition := 1
    paymentStatus := .skipped, referralCode := none, isVip := false
    successfulReferrals := 0, createdAt := -(dayMs / 2) }

/-- Store for the C6 failing input. -/
def c6Db : Db := { emptyDb with entries := [c6Entry], nextEntryId := 2 }

/-- Result of the first scheduler run on the C6 store. -/
def c6Run1 : Db := processEmailSequence c6Env c6Db

/-- Environment in which every best-effort collaborator fails: SendGrid is
down for all messages and the referral store handle is unavailable. -/
def failEnv : Env :=
  { now := 0, freshCode := "ZZ99XX88", refDbAvailable := false
    refUpdateOk := false, refRecordCode := "REF-1-FAIL", receiptOk := false
    boardingOk := false, notifyOk := false }

/-- Checkout session whose metadata carries only the email: firstName,
queuePosition and referralCode are all absent. -/
def c8Session : CheckoutSession :=
  { customerEmail := some "a@x.com", metaEmail := some "a@x.com"
    metaFirstName := none, metaQueuePosition := none
    metaReferralCode := none }

/-- Entry without a referral code, for the C9 witness. -/
def c9Entry : WaitlistEntry :=
  { id := 1, email := "a@x.com", firstName := "Ann", queuePosition := 1
    paymentStatus := .skipped, referralCode := none, isVip := false
    successfulReferrals := 0, createdAt := 0 }

/-- Store holding the code-less entry, for the C9 witness. -/
def c9Db : Db := { emptyDb with entries := [c9Entry], nextEntryId := 2 }

/-- Environment whose referral store handle works but whose UPDATE fails. -/
def halfEnv : Env := { okEnv with refUpdateOk := false }

example :
    (runSignups
      [(okEnv, .free "a@x.com" "A"), (okEnv, .paid "b@x.com" "B" none)]
      emptyDb).map (fun db => db.entries.map (·.queuePosition)) =
    .ok [1, 2] := by rfl

example :
    (runSignups
      [(okEnv, .paid "a@x.com" "A" none), (okEnv, .free "b@x.com" "B"),
       (okEnv, .free "c@x.com" "C")]
      emptyDb).map (fun db => db.entries.map (·.queuePosition)) =
    .ok [1, 2, 3] := by rfl

theorem entrySig_of_preserve (l : List WaitlistEntry)
    (g : WaitlistEntry → WaitlistEntry)
    (h : ∀ x, (g x).email = x.email ∧ (g x).queuePosition = x.queuePosition) :
    entrySig (l.map g) = entrySig l := by
  unfold entrySig
  rw [List.map_map]
  exact List.map_congr_left (fun a _ => by
    simp only [Function.comp_apply, (h a).1, (h a).2])

theorem countP_of_sig (l l' : List WaitlistEntry) (em : String)
    (h : entrySig l' = entrySig l) :
    l'.countP (fun x => x.email == em) = l.countP (fun x => x.email == em) := by
  have h1 : l'.countP (fun x => x.email == em) =
      (entrySig l').countP (fun q => q.1 == em) := by
    unfold entrySig
    rw [List.countP_map]
    rfl
  have h2 : l.countP (fun x => x.email == em) =
      (entrySig l).countP (fun q => q.1 == em) := by
    unfold entrySig
    rw [List.countP_map]
    rfl
  rw [h1, h2, h]

theorem generateReferralCode_sig (env : Env) (db : Db) (i : Nat) :
    entrySig (generateReferralCode env db i).2.entries = entrySig db.entries := by
  unfold generateReferralCode
  split
  · rfl
  · split
    · split
      · rfl
      · split
        · exact entrySig_of_preserve _ _ (fun x => by split <;> simp)
        · rfl
    · split
      · exact entrySig_of_preserve _ _ (fun x => by split <;> simp)
      · rfl

theorem recordReferral_sig (env : Env) (db : Db) (c em : String) (uid : Nat)
    (res : RecordReferralResult) (db' : Db)
    (h : recordReferral env db c em uid = .ok (res, db')) :
    entrySig db'.entries = entrySig db.entries := by
  unfold recordReferral at h
  split at h
  · exact absurd h (by simp)
  · split at h
    · cases h
      rfl
    · cases h
      exact entrySig_of_preserve _ _ (fun x => by split <;> simp)

theorem applyReferral_sig (env : Env) (db : Db) (c em : String) (uid : Nat) :
    entrySig (applyReferral env db c em uid).entries = entrySig db.entries := by
  unfold applyReferral
  split
  · next res db' h => exact recordReferral_sig env db c em uid res db' h
  · rfl

theorem le_maxQueuePosition (l : List WaitlistEntry) :
    ∀ e ∈ l, e.queuePosition ≤ maxQueuePosition l := by
  induction l with
  | nil => intro e he; cases he
  | cons a l ih =>
    intro e he
    simp only [maxQueuePosition, List.foldr_cons]
    rcases List.mem_cons.mp he with rfl | he
    · exact le_max_left _ _
    · exact le_trans (ih e he) (le_max_right _ _)

theorem foldr_max_range' : ∀ (n s : Nat),
    (List.range' s n).foldr (fun a b => max a b) 0 =
      if n = 0 then 0 else s + n - 1 := by
  intro n
  induction n with
  | zero => intro s; rfl
  | succ m ih =>
    intro s
    rw [List.range'_succ]
    simp only [List.foldr_cons, ih]
    by_cases hm : m = 0
    · subst hm
      simp
    · rw [if_neg hm, if_neg (Nat.succ_ne_zero m)]
      omega

theorem maxQueuePosition_of_range (l : List WaitlistEntry) (n : Nat)
    (h : l.map (fun x => x.queuePosition) = List.range' 1 n) :
    maxQueuePosition l = n := by
  have h1 : maxQueuePosition l =
      (l.map (fun x => x.queuePosition)).foldr (fun a b => max a b) 0 := by
    unfold maxQueuePosition
    rw [List.foldr_map]
  rw [h1, h, foldr_max_range']
  by_cases hn : n = 0
  · simp [hn]
  · simp only [hn, if_neg, reduceIte]
    omega

theorem find?_email_none (l : List WaitlistEntry) (e : String)
    (h : ∀ x ∈ l, x.email ≠ e) :
    l.find? (fun x => x.email == e) = none := by
  rw [List.find?_eq_none]
  intro x hx
  simp only [beq_iff_eq]
  exact h x hx

theorem addToWaitlistWithoutPayment_fresh (env : Env) (e f : String) (db : Db)
    (hfresh : ∀ x ∈ db.entries, x.email ≠ e) :
    ∃ r db', addToWaitlistWithoutPayment env e f db = .ok (r, db') ∧
      r.email = e ∧
      r.queuePosition = getNextQueuePosition db ∧
      r.isVip = false ∧ r.successfulReferrals = 0 ∧
      entrySig db'.entries =
        entrySig db.entries ++ [(e, getNextQueuePosition db)] := by
  simp only [addToWaitlistWithoutPayment, find?_email_none db.entries e hfresh]
  refine ⟨_, _, rfl, rfl, rfl, rfl, rfl, ?_⟩
  simp only [sendInternalNotification, sendBoardingPassEmail]
  rw [generateReferralCode_sig]
  simp [entrySig]

theorem paidSignup_fresh (env : Env) (e f : String) (rc : Option String)
    (db : Db) (hfresh : ∀ x ∈ db.entries, x.email ≠ e) (he : e ≠ "") :
    ∃ r db', paidSignup env e f rc db = .ok (r, db') ∧
      r.email = e ∧
      r.queuePosition = getNextQueuePosition db ∧
      r.isVip = false ∧ r.successfulReferrals = 0 ∧
      entrySig db'.entries =
        entrySig db.entries ++ [(e, getNextQueuePosition db)] := by
  have hcond : (!(truthyStr (some e)) || !(truthyStr (some e))) = false := by
    simp [truthyStr, he]
  have hjs : jsOrStr (some e) "" = e := by
    simp [jsOrStr, he]
  simp only [paidSignup, createCheckoutSession, handlePaymentSuccess, hcond,
    Bool.false_eq_true, if_false, hjs, Option.getD_some]
  rw [find?_email_none db.entries e hfresh]
  cases hju : jsOrUndef (some (jsOrStr rc "")) with
  | none =>
    simp only [hju]
    refine ⟨_, _, rfl, rfl, rfl, rfl, rfl, ?_⟩
    simp only [sendInternalNotification, sendPaymentReceiptEmail]
    rw [generateReferralCode_sig]
    simp [entrySig]
  | some code =>
    simp only [hju]
    refine ⟨_, _, rfl, rfl, rfl, rfl, rfl, ?_⟩
    simp only [sendInternalNotification, sendPaymentReceiptEmail]
    rw [applyReferral_sig, generateReferralCode_sig]
    simp [entrySig]

theorem emails_of_sig (l : List WaitlistEntry) :
    l.map (fun x => x.email) = (entrySig l).map Prod.fst := by
  unfold entrySig
  rw [List.map_map]
  rfl

theorem positions_of_sig (l : List WaitlistEntry) :
    l.map (fun x => x.queuePosition) = (entrySig l).map Prod.snd := by
  unfold entrySig
  rw [List.map_map]
  rfl

theorem runSignup_fresh (env : Env) (op : SignupOp) (db : Db)
    (hfresh : ∀ x ∈ db.entries, x.email ≠ op.email) (he : op.email ≠ "") :
    ∃ db', runSignup env op db = .ok db' ∧
      entrySig db'.entries =
        entrySig db.entries ++ [(op.email, getNextQueuePosition db)] := by
  cases op with
  | free e f =>
    obtain ⟨r, db', heq, _, _, _, _, hsig⟩ :=
      addToWaitlistWithoutPayment_fresh env e f db hfresh
    exact ⟨db', by simp [runSignup, heq], hsig⟩
  | paid e f rc =>
    obtain ⟨r, db', heq, _, _, _, _, hsig⟩ :=
      paidSignup_fresh env e f rc db hfresh he
    exact ⟨db', by simp [runSignup, heq], hsig⟩

theorem runSignups_fresh (L : List (Env × SignupOp)) : ∀ (db : Db) (n : Nat),
    db.entries.map (fun x => x.queuePosition) = List.range' 1 n →
    (∀ p ∈ L, p.2.email ≠ "") →
    (∀ p ∈ L, ∀ x ∈ db.entries, x.email ≠ p.2.email) →
    (L.map (fun p => p.2.email)).Nodup →
    ∃ db', runSignups L db = .ok db' ∧
      db'.entries.map (fun x => x.queuePosition) =
        List.range' 1 (n + L.length) ∧
      db'.entries.map (fun x => x.email) =
        db.entries.map (fun x => x.email) ++ L.map (fun p => p.2.email) := by
  induction L with
  | nil =>
    intro db n hpos _ _ _
    exact ⟨db, rfl, by simpa using hpos, by simp⟩
  | cons p L ih =>
    intro db n hpos hne hfresh hnodup
    obtain ⟨db1, hrun, hsig⟩ :=
      runSignup_fresh p.1 p.2 db
        (hfresh p (List.mem_cons_self p L))
        (hne p (List.mem_cons_self p L))
    have hqp : getNextQueuePosition db = n + 1 := by
      unfold getNextQueuePosition
      rw [maxQueuePosition_of_range db.entries n hpos]
    have hpos1 : db1.entries.map (fun x => x.queuePosition) =
        List.range' 1 (n + 1) := by
      rw [positions_of_sig, hsig, List.map_append, ← positions_of_sig, hpos,
        hqp, List.range'_concat]
      simp
      omega
    have hemails1 : db1.entries.map (fun x => x.email) =
        db.entries.map (fun x => x.email) ++ [p.2.email] := by
      rw [emails_of_sig, hsig, List.map_append, ← emails_of_sig]
      rfl
    have hnodup' : p.2.email ∉ L.map (fun q => q.2.email) ∧
        (L.map (fun q => q.2.email)).Nodup := by
      rw [List.map_cons] at hnodup
      exact List.nodup_cons.mp hnodup
    have hfresh1 : ∀ p' ∈ L, ∀ x ∈ db1.entries, x.email ≠ p'.2.email := by
      intro p' hp' x hx hEq
      have hxmem : x.email ∈ db1.entries.map (fun y => y.email) :=
        List.mem_map_of_mem _ hx
      rw [hemails1] at hxmem
      rcases List.mem_append.mp hxmem with hmem | hmem
      · obtain ⟨y, hy, hyx⟩ := List.mem_map.mp hmem
        exact hfresh p' (List.mem_cons_of_mem p hp') y hy (by rw [hyx, hEq])
      · have hxe : x.email = p.2.email := by simpa using hmem
        exact hnodup'.1 (by
          refine List.mem_map.mpr ⟨p', hp', ?_⟩
          rw [← hEq, hxe])
    obtain ⟨db', hrunL, hposL, hemailsL⟩ :=
      ih db1 (n + 1) hpos1
        (fun q hq => hne q (List.mem_cons_of_mem p hq))
        hfresh1 hnodup'.2
    refine ⟨db', ?_, ?_, ?_⟩
    · simp only [runSignups, hrun]
      exact hrunL
    · rw [hposL]
      have harith : n + 1 + L.length = n + (L.length + 1) := by omega
      rw [harith]
      rfl
    · rw [hemailsL, hemails1, List.append_assoc]
      rfl

theorem countEmail_eq_sig (l : List WaitlistEntry) (em : String) :
    l.countP (fun x => x.email == em) =
      (entrySig l).countP (fun q => q.1 == em) := by
  unfold entrySig
  rw [List.countP_map]
  rfl

theorem countEmail_step (db db' : Db) (e : String) (qp : Nat)
    (hsig : entrySig db'.entries = entrySig db.entries ++ [(e, qp)])
    (hnone : db.entries.find? (fun x => x.email == e) = none)
    (hinv : ∀ em, countEmail db em ≤ 1) :
    ∀ em, countEmail db' em ≤ 1 := by
  intro em
  have hc : countEmail db' em =
      countEmail db em + (if e == em then 1 else 0) := by
    unfold countEmail
    rw [countEmail_eq_sig, countEmail_eq_sig, hsig, List.countP_append]
    simp [List.countP_cons]
  by_cases he : e = em
  · subst he
    have h0 : countEmail db e = 0 := by
      unfold countEmail
      rw [List.countP_eq_zero]
      intro x hx
      have hne := List.find?_eq_none.mp hnone x hx
      simpa using hne
    rw [hc, h0]
    simp
  · rw [hc]
    simp only [beq_iff_eq, he, if_false, reduceIte, Nat.add_zero]
    exact hinv em

theorem runSignup_cases (env : Env) (op : SignupOp) (db db' : Db)
    (hrun : runSignup env op db = .ok db') :
    db' = db ∨
      (entrySig db'.entries =
        entrySig db.entries ++ [(op.email, getNextQueuePosition db)] ∧
       db.entries.find? (fun x => x.email == op.email) = none) := by
  cases op with
  | free e f =>
    cases hfind : db.entries.find? (fun x => x.email == e) with
    | some ex =>
      left
      simp only [runSignup, addToWaitlistWithoutPayment, hfind] at hrun
      simp only [Except.ok.injEq] at hrun
      exact hrun.symm
    | none =>
      right
      have hfresh : ∀ x ∈ db.entries, x.email ≠ e := by
        intro x hx
        have h := List.find?_eq_none.mp hfind x hx
        simpa using h
      obtain ⟨r, db1, heq, _, _, _, _, hsig⟩ :=
        addToWaitlistWithoutPayment_fresh env e f db hfresh
      simp only [runSignup, heq, Except.ok.injEq] at hrun
      exact ⟨hrun ▸ hsig, hfind⟩
  | paid e f rc =>
    by_cases he : e = ""
    · subst he
      simp [runSignup, paidSignup, createCheckoutSession, handlePaymentSuccess,
        truthyStr] at hrun
    · have hcond : (!(truthyStr (some e)) || !(truthyStr (some e))) = false := by
        simp [truthyStr, he]
      have hjs : jsOrStr (some e) "" = e := by
        simp [jsOrStr, he]
      cases hfind : db.entries.find? (fun x => x.email == e) with
      | some ex =>
        left
        simp only [runSignup, paidSignup, createCheckoutSession,
          handlePaymentSuccess, hcond, Bool.false_eq_true, if_false, hjs,
          hfind, Except.ok.injEq] at hrun
        exact hrun.symm
      | none =>
        right
        have hfresh : ∀ x ∈ db.entries, x.email ≠ e := by
          intro x hx
          have h := List.find?_eq_none.mp hfind x hx
          simpa using h
        obtain ⟨r, db1, heq, _, _, _, _, hsig⟩ :=
          paidSignup_fresh env e f rc db hfresh he
        simp only [runSignup, heq, Except.ok.injEq] at hrun
        exact ⟨hrun ▸ hsig, hfind⟩

theorem runSignups_countEmail :
    ∀ (L : List (Env × SignupOp)) (db db' : Db),
      runSignups L db = .ok db' → (∀ em, countEmail db em ≤ 1) →
      ∀ em, countEmail db' em ≤ 1 := by
  intro L
  induction L with
  | nil =>
    intro db db' h hinv
    simp only [runSignups, Except.ok.injEq] at h
    exact h ▸ hinv
  | cons p L ih =>
    intro db db' h hinv
    rcases hr : runSignup p.1 p.2 db with msg | db1
    · rw [runSignups, hr] at h
      cases h
    · rw [runSignups, hr] at h
      rcases runSignup_cases p.1 p.2 db db1 hr with hdb | ⟨hsig, hnone⟩
      · exact ih db1 db' h (hdb ▸ hinv)
      · exact ih db1 db' h (countEmail_step db db1 _ _ hsig hnone hinv)

/-- C1: for every sequence of signups with distinct nonempty emails executed
through the public operations (createCheckoutSession immediately followed by
handlePaymentSuccess, or addToWaitlistWithoutPayment), the assigned queue
positions are exactly 1..N in creation order, with no duplicates and no
gaps; and getNextQueuePosition returns one more than the current maximum
assigned position (hence strictly above every assigned position), starting
at 1 when the table is empty. -/
theorem C1_queue_positions_gapless (L : List (Env × SignupOp))
    (hne : ∀ p ∈ L, p.2.email ≠ "")
    (hnodup : (L.map (fun p => p.2.email)).Nodup) :
    (∀ db : Db, getNextQueuePosition db = maxQueuePosition db.entries + 1) ∧
    getNextQueuePosition emptyDb = 1 ∧
    (∀ db : Db, ∀ e ∈ db.entries, e.queuePosition < getNextQueuePosition db) ∧
    ∃ db', runSignups L emptyDb = .ok db' ∧
      db'.entries.map (fun x => x.queuePosition) = List.range' 1 L.length := by
  refine ⟨fun db => rfl, rfl, ?_, ?_⟩
  · intro db e he
    exact Nat.lt_succ_of_le (le_maxQueuePosition db.entries e he)
  · obtain ⟨db', h1, h2, _⟩ :=
      runSignups_fresh L emptyDb 0 rfl hne
        (fun p _ x hx => absurd hx (by simp [emptyDb])) hnodup
    exact ⟨db', h1, by simpa using h2⟩

theorem C1_queue_positions_gapless_witness :
    ∃ db', runSignups C1ops emptyDb = .ok db' ∧
      db'.entries.map (fun x => x.queuePosition) =
        List.range' 1 C1ops.length :=
  (C1_queue_positions_gapless C1ops (by decide) (by decide)).2.2.2

/-- C2: resubmitting an email that already has an entry returns the
existing entry's queue position through both the paid path and the
skip-payment path (hence the same position both times), leaves the store
completely unchanged (no second entry inserted), and every run of public
signups starting from the empty store leaves at most one entry per
email. -/
theorem C2_resubmission_idempotent (env env' : Env) (e f f' : String)
    (rc : Option String) (db : Db) (ex : WaitlistEntry)
    (hex : db.entries.find? (fun x => x.email == e) = some ex)
    (he : e ≠ "") :
    paidSignup env e f rc db =
      .ok ({ email := ex.email, queuePosition := ex.queuePosition,
             referralCode := ex.referralCode.getD "", isVip := ex.isVip,
             successfulReferrals := ex.successfulReferrals }, db) ∧
    addToWaitlistWithoutPayment env' e f' db =
      .ok ({ email := e, queuePosition := ex.queuePosition,
             referralCode := ex.referralCode.getD "", isVip := ex.isVip,
             successfulReferrals := ex.successfulReferrals }, db) ∧
    (∀ (L : List (Env × SignupOp)) (db' : Db),
      runSignups L emptyDb = .ok db' → ∀ em, countEmail db' em ≤ 1) := by
  refine ⟨?_, ?_, ?_⟩
  · have hcond : (!(truthyStr (some e)) || !(truthyStr (some e))) = false := by
      simp [truthyStr, he]
    have hjs : jsOrStr (some e) "" = e := by
      simp [jsOrStr, he]
    simp only [paidSignup, createCheckoutSession, handlePaymentSuccess, hcond,
      Bool.false_eq_true, if_false, hjs, hex]
  · simp only [addToWaitlistWithoutPayment, hex]
  · intro L db' h em
    exact runSignups_countEmail L emptyDb db' h
      (fun em => by simp [countEmail, emptyDb]) em

theorem C2_resubmission_idempotent_witness :
    paidSignup okEnv "a@x.com" "Ann" none c2Db =
      .ok ({ email := c2Entry.email, queuePosition := c2Entry.queuePosition,
             referralCode := c2Entry.referralCode.getD ""
             isVip := c2Entry.isVip
             successfulReferrals := c2Entry.successfulReferrals }, c2Db) ∧
    addToWaitlistWithoutPayment okEnv "a@x.com" "Ann" c2Db =
      .ok ({ email := "a@x.com", queuePosition := c2Entry.queuePosition,
             referralCode := c2Entry.referralCode.getD ""
             isVip := c2Entry.isVip
             successfulReferrals := c2Entry.successfulReferrals }, c2Db) ∧
    (∀ (L : List (Env × SignupOp)) (db' : Db),
      runSignups L emptyDb = .ok db' → ∀ em, countEmail db' em ≤ 1) :=
  C2_resubmission_idempotent okEnv okEnv "a@x.com" "Ann" "Ann" none c2Db
    c2Entry (by decide) (by decide)

theorem find?_congr_pred {α : Type} (l : List α) (p q : α → Bool)
    (h : ∀ x, p x = q x) : l.find? p = l.find? q := by
  induction l with
  | nil => rfl
  | cons a l ih =>
    rw [List.find?_cons, List.find?_cons, h a]
    cases q a <;> simp [ih]

theorem find?_map_preserved (l : List WaitlistEntry)
    (g : WaitlistEntry → WaitlistEntry) (p : WaitlistEntry → Bool)
    (hp : ∀ x, p (g x) = p x) :
    (l.map g).find? p = (l.find? p).map g := by
  rw [List.find?_map]
  congr 1
  exact find?_congr_pred l (p ∘ g) p hp

theorem find?_id_of_nodup (l : List WaitlistEntry) (rp : WaitlistEntry)
    (hnd : (l.map (fun x => x.id)).Nodup) (hmem : rp ∈ l) :
    l.find? (fun x => x.id == rp.id) = some rp := by
  induction l with
  | nil => cases hmem
  | cons a l ih =>
    rw [List.map_cons] at hnd
    have hnd' := List.nodup_cons.mp hnd
    rcases List.mem_cons.mp hmem with rfl | hmem'
    · rw [List.find?_cons]
      simp
    · have hne : (a.id == rp.id) = false := by
        rw [beq_eq_false_iff_ne]
        intro hid
        exact hnd'.1 (hid ▸ List.mem_map_of_mem (fun x => x.id) hmem')
      simp only [List.find?_cons, hne]
      exact ih hnd'.2 hmem'

theorem vip_mono_map (l : List WaitlistEntry)
    (g : WaitlistEntry → WaitlistEntry)
    (hg : ∀ x, x.isVip = true → (g x).isVip = true) (i : Nat)
    (h : i < l.length) (h' : i < (l.map g).length)
    (hv : (l.get ⟨i, h⟩).isVip = true) :
    ((l.map g).get ⟨i, h'⟩).isVip = true := by
  rw [List.get_map]
  exact hg _ hv

/-- C3 counterexample: processReferral (a referral-processing operation of
referral.ts, src/unnamed/part_007 lines 71-128) promotes a referrer to VIP
on the very first successful referral — the counter moves from 0 to 1,
far below the threshold of 3, yet isVip is set to true unconditionally
(line 114). -/
theorem C3_counterexample :
    c3Referrer.isVip = false ∧
    c3Referrer.successfulReferrals = 0 ∧
    (processReferral okEnv c3Db "INVITE1" 2).1 = true ∧
    (processReferral okEnv c3Db "INVITE1" 2).2.entries.map
      (fun x => (x.isVip, x.successfulReferrals)) = [(true, 1)] := by
  decide

/-- C3 amended: under recordReferral (the referral operation wired into the
signup flows) the referrer's VIP flag is set exactly when the incremented
counter reaches the fixed threshold 3 and the referrer was not already VIP
— so in recordReferral-only histories exactly on the 2-to-3 transition —
and neither recordReferral nor processReferral ever clears a VIP flag;
processReferral, however, sets the referrer's VIP flag to true on every
successful referral regardless of the counter, promoting before the
counter reaches 3. -/
theorem C3_vip_amended :
    (∀ (env : Env) (db : Db) (c em : String) (uid : Nat)
       (rp : WaitlistEntry) (res : RecordReferralResult) (db' : Db),
       verifyReferralCode db c = some rp →
       recordReferral env db c em uid = .ok (res, db') →
       res.success = true →
       res.referrerPromotedToVip =
         (decide (3 ≤ rp.successfulReferrals + 1) && !rp.isVip)) ∧
    (∀ (env : Env) (db : Db) (c em : String) (uid : Nat)
       (res : RecordReferralResult) (db' : Db),
       recordReferral env db c em uid = .ok (res, db') →
       ∀ (i : Nat) (h : i < db.entries.length) (h' : i < db'.entries.length),
         (db.entries.get ⟨i, h⟩).isVip = true →
         (db'.entries.get ⟨i, h'⟩).isVip = true) ∧
    (∀ (env : Env) (db : Db) (c : String) (uid : Nat) (ok : Bool) (db' : Db),
       processReferral env db c uid = (ok, db') →
       ∀ (i : Nat) (h : i < db.entries.length) (h' : i < db'.entries.length),
         (db.entries.get ⟨i, h⟩).isVip = true →
         (db'.entries.get ⟨i, h'⟩).isVip = true) ∧
    (∀ (env : Env) (db : Db) (c : String) (uid : Nat)
       (ref : ReferralRecord) (rp : WaitlistEntry) (ok : Bool) (db' : Db),
       db.referrals.find? (fun r => r.referralCode == c) = some ref →
       db.entries.find? (fun x => x.id == ref.referrerId) = some rp →
       processReferral env db c uid = (ok, db') →
       db'.entries.find? (fun x => x.id == ref.referrerId) =
         some { rp with successfulReferrals := rp.successfulReferrals + 1,
                        isVip := true }) := by
  refine ⟨?_, ?_, ?_, ?_⟩
  · intro env db c em uid rp res db' hverify hrec hsucc
    unfold recordReferral at hrec
    simp only [hverify] at hrec
    cases hf : db.referrals.find? (fun r =>
        r.referrerId == rp.id && r.referredEmail == em) with
    | some r0 =>
      simp only [hf, Except.ok.injEq, Prod.mk.injEq] at hrec
      rw [← hrec.1] at hsucc
      exact Bool.noConfusion hsucc
    | none =>
      simp only [hf, Except.ok.injEq, Prod.mk.injEq] at hrec
      rw [← hrec.1]
  · intro env db c em uid res db' hrec i h h' hv
    unfold recordReferral at hrec
    cases hv1 : verifyReferralCode db c with
    | none => simp only [hv1, reduceCtorEq] at hrec
    | some referrer =>
      simp only [hv1] at hrec
      cases hf : db.referrals.find? (fun r =>
          r.referrerId == referrer.id && r.referredEmail == em) with
      | some r0 =>
        simp only [hf, Except.ok.injEq, Prod.mk.injEq] at hrec
        obtain ⟨hres, hdb⟩ := hrec
        subst hdb
        exact hv
      | none =>
        simp only [hf, Except.ok.injEq, Prod.mk.injEq] at hrec
        obtain ⟨hres, hdb⟩ := hrec
        subst hdb
        refine vip_mono_map db.entries _ (fun x hx => ?_) i h h' hv
        split
        · simp [hx]
        · exact hx
  · intro env db c uid ok db' hpr i h h' hv
    unfold processReferral at hpr
    cases hf : db.referrals.find? (fun r => r.referralCode == c) with
    | none =>
      simp only [hf, Prod.mk.injEq] at hpr
      obtain ⟨hok, hdb⟩ := hpr
      subst hdb
      exact hv
    | some ref =>
      simp only [hf] at hpr
      cases hf2 : db.entries.find? (fun e => e.id == ref.referrerId) with
      | none =>
        simp only [hf2, Prod.mk.injEq] at hpr
        obtain ⟨hok, hdb⟩ := hpr
        subst hdb
        exact hv
      | some referrer =>
        simp only [hf2, Prod.mk.injEq] at hpr
        obtain ⟨hok, hdb⟩ := hpr
        subst hdb
        refine vip_mono_map db.entries _ (fun x hx => ?_) i h h' hv
        split
        · simp
        · exact hx
  · intro env db c uid ref rp ok db' hfind1 hfind2 hpr
    unfold processReferral at hpr
    simp only [hfind1] at hpr
    simp only [hfind2, Prod.mk.injEq] at hpr
    obtain ⟨hok, hdb⟩ := hpr
    have hdbe : db'.entries = db.entries.map
        (fun x => if (x.id == ref.referrerId) = true then
          { x with successfulReferrals := rp.successfulReferrals + 1,
                   isVip := true } else x) := by
      rw [← hdb]
    rw [hdbe, find?_map_preserved db.entries _ _ (fun x => by
      split <;> rfl), hfind2]
    have hpid : (rp.id == ref.referrerId) = true := by
      simpa using List.find?_some hfind2
    simp [hpid]
    intro hne
    exact absurd (by simpa using hpid) hne

theorem C3_vip_amended_witness :
    (⟨true, false⟩ : RecordReferralResult).referrerPromotedToVip =
      (decide (3 ≤ c3Referrer.successfulReferrals + 1) && !c3Referrer.isVip) ∧
    (c3VipDbAfter.entries.get ⟨0, by decide⟩).isVip = true ∧
    (c3VipDbPR.entries.get ⟨0, by decide⟩).isVip = true ∧
    c3DbPR.entries.find? (fun x => x.id == c3Record.referrerId) =
      some { c3Referrer with
             successfulReferrals := c3Referrer.successfulReferrals + 1,
             isVip := true } := by
  obtain ⟨ha, hb, hc, hd⟩ := C3_vip_amended
  refine ⟨?_, ?_, ?_, ?_⟩
  · exact ha okEnv c3Db "AB12CD34" "d@x.com" 2 c3Referrer ⟨true, false⟩
      c3DbAfter (by decide) (by decide) (by decide)
  · exact hb okEnv c3VipDb "AB12CD34" "d@x.com" 2 ⟨true, false⟩ c3VipDbAfter
      (by decide) 0 (by decide) (by decide) (by decide)
  · exact hc okEnv c3VipDb "INVITE1" 2 true c3VipDbPR (by decide) 0
      (by decide) (by decide) (by decide)
  · exact hd okEnv c3Db "INVITE1" 2 c3Record c3Referrer true c3DbPR
      (by decide) (by decide) (by decide)

/-- C4: recordReferral throws on an unknown code; a pre-existing record for
the (referrer, newEmail) pair yields a non-error success-false result with
the store untouched (no record inserted, counter and VIP flag unmodified);
a fresh valid redemption inserts exactly one ReferralRecord carrying the
freshly minted code and increments the referrer's successfulReferrals by
exactly 1, leaving every other entry unchanged. -/
theorem C4_recordReferral_contract :
    (∀ (env : Env) (db : Db) (c em : String) (uid : Nat),
      verifyReferralCode db c = none →
      recordReferral env db c em uid = .error "Invalid referral code") ∧
    (∀ (env : Env) (db : Db) (c em : String) (uid : Nat)
       (rp : WaitlistEntry) (r0 : ReferralRecord),
      verifyReferralCode db c = some rp →
      db.referrals.find? (fun r =>
          r.referrerId == rp.id && r.referredEmail == em) = some r0 →
      recordReferral env db c em uid = .ok (⟨false, false⟩, db)) ∧
    (∀ (env : Env) (db : Db) (c em : String) (uid : Nat)
       (rp : WaitlistEntry),
      verifyReferralCode db c = some rp →
      db.referrals.find? (fun r =>
          r.referrerId == rp.id && r.referredEmail == em) = none →
      (db.entries.map (fun x => x.id)).Nodup →
      ∃ db', recordReferral env db c em uid =
          .ok (⟨true, decide (3 ≤ rp.successfulReferrals + 1) && !rp.isVip⟩,
               db') ∧
        db'.referrals = db.referrals ++
          [{ id := db.nextReferralId, referrerId := rp.id,
             referredId := some uid, referredEmail := em,
             referralCode := env.refRecordCode, joinedAt := some env.now }] ∧
        db'.entries.find? (fun x => x.id == rp.id) =
          some { rp with
                 successfulReferrals := rp.successfulReferrals + 1,
                 isVip :=
                   if (decide (3 ≤ rp.successfulReferrals + 1) && !rp.isVip)
                      = true then true else rp.isVip } ∧
        (∀ x ∈ db.entries, x.id ≠ rp.id → x ∈ db'.entries)) := by
  refine ⟨?_, ?_, ?_⟩
  · intro env db c em uid h
    simp only [recordReferral, h]
  · intro env db c em uid rp r0 h hr
    simp only [recordReferral, h, hr]
  · intro env db c em uid rp h hnone hnd
    simp only [recordReferral, h, hnone]
    refine ⟨_, rfl, rfl, ?_, ?_⟩
    · rw [find?_map_preserved db.entries _ _ (fun x => by split <;> rfl),
        find?_id_of_nodup db.entries rp hnd (List.mem_of_find?_eq_some h)]
      simp
    · intro x hx hne
      have hid : (x.id == rp.id) = false := beq_eq_false_iff_ne.mpr hne
      exact List.mem_map.mpr ⟨x, hx, by simp [hid]⟩

theorem C4_recordReferral_contract_witness :
    recordReferral okEnv c3Db "NOPE" "b@x.com" 2 =
      .error "Invalid referral code" ∧
    recordReferral okEnv c3Db "AB12CD34" "b@x.com" 2 =
      .ok (⟨false, false⟩, c3Db) ∧
    (∃ db', recordReferral okEnv c3Db "AB12CD34" "d@x.com" 2 =
        .ok (⟨true, decide (3 ≤ c3Referrer.successfulReferrals + 1) &&
              !c3Referrer.isVip⟩, db') ∧
      db'.referrals = c3Db.referrals ++
        [{ id := c3Db.nextReferralId, referrerId := c3Referrer.id,
           referredId := some 2, referredEmail := "d@x.com",
           referralCode := okEnv.refRecordCode,
           joinedAt := some okEnv.now }] ∧
      db'.entries.find? (fun x => x.id == c3Referrer.id) =
        some { c3Referrer with
               successfulReferrals := c3Referrer.successfulReferrals + 1,
               isVip :=
                 if (decide (3 ≤ c3Referrer.successfulReferrals + 1) &&
                     !c3Referrer.isVip) = true then true
                 else c3Referrer.isVip } ∧
      (∀ x ∈ c3Db.entries, x.id ≠ c3Referrer.id → x ∈ db'.entries)) := by
  obtain ⟨ha, hb, hc⟩ := C4_recordReferral_contract
  refine ⟨?_, ?_, ?_⟩
  · exact ha okEnv c3Db "NOPE" "b@x.com" 2 (by decide)
  · exact hb okEnv c3Db "AB12CD34" "b@x.com" 2 c3Referrer c3Record
      (by decide) (by decide)
  · exact hc okEnv c3Db "AB12CD34" "d@x.com" 2 c3Referrer
      (by decide) (by decide) (by decide)

/-- C5: the eligibility query of sendEmailsForDay has no lower time bound
(emailSequence.ts computes `nDaysAgo` on line 79 but the WHERE clause on
lines 85-101 only uses the upper bound), so the day-3 config selects an
entry created 30 days ago — far outside the spec's
`[now-3d, now-2d)` window — sends it the content_preview email and writes
a tracking record for it. -/
theorem C5_window_counterexample :
    eligibleSubscribers c5Env c5Db ⟨3, .content_preview⟩ = [c5Entry] ∧
    specSelectionWindow 0 3 c5Entry.createdAt = false ∧
    (sendEmailsForDay c5Env c5Db ⟨3, .content_preview⟩).tracking =
      [⟨1, 3, .content_preview, some 0⟩] ∧
    (sendEmailsForDay c5Env c5Db ⟨3, .content_preview⟩).emailLog =
      [⟨.seqMail .content_preview, "old@x.com", true⟩] := by
  decide

/-- C6: delivery of the welcome email fails (sendEmail reports
success := false — it never throws, email.ts lines 59-91), yet the
tracking record is written anyway because sendEmailsForDay never consults
the result (emailSequence.ts lines 124-137); consequently a second run
selects nothing and never retries the failed delivery: it leaves the
store completely unchanged. -/
theorem C6_failed_delivery_counterexample :
    c6Run1.emailLog = [⟨.seqMail .welcome, "a@x.com", false⟩] ∧
    c6Run1.tracking = [⟨1, 1, .welcome, some 0⟩] ∧
    processEmailSequence c6Env c6Run1 = c6Run1 := by
  decide

theorem countEmail_succ_of_sig (db db' : Db) (e : String) (qp : Nat)
    (hsig : entrySig db'.entries = entrySig db.entries ++ [(e, qp)]) :
    countEmail db' e = countEmail db e + 1 := by
  unfold countEmail
  rw [countEmail_eq_sig, countEmail_eq_sig, hsig, List.countP_append]
  simp [List.countP_cons]

/-- C7: for a fresh email, both signup paths return the successful result
with the entry created no matter which best-effort side effects fail: the
environment (SendGrid delivery switches, the referral store availability)
and the carried referral code (possibly invalid, making recordReferral
throw inside the try/catch) are universally quantified, and the operation
still returns .ok with exactly one new entry for the email. -/
theorem C7_side_effect_failures_absorbed (env : Env) (db : Db)
    (e f : String) (rc : Option String)
    (hfresh : ∀ x ∈ db.entries, x.email ≠ e) (he : e ≠ "") :
    (∃ r db', paidSignup env e f rc db = .ok (r, db') ∧
      r.email = e ∧ r.queuePosition = getNextQueuePosition db ∧
      countEmail db' e = countEmail db e + 1) ∧
    (∃ r db', addToWaitlistWithoutPayment env e f db = .ok (r, db') ∧
      r.queuePosition = getNextQueuePosition db ∧
      countEmail db' e = countEmail db e + 1) := by
  constructor
  · obtain ⟨r, db', heq, hmail, hqp, _, _, hsig⟩ :=
      paidSignup_fresh env e f rc db hfresh he
    exact ⟨r, db', heq, hmail, hqp, countEmail_succ_of_sig db db' e _ hsig⟩
  · obtain ⟨r, db', heq, _, hqp, _, _, hsig⟩ :=
      addToWaitlistWithoutPayment_fresh env e f db hfresh
    exact ⟨r, db', heq, hqp, countEmail_succ_of_sig db db' e _ hsig⟩

theorem C7_side_effect_failures_absorbed_witness :
    (∃ r db', paidSignup failEnv "a@x.com" "Ann" (some "NOSUCH") emptyDb =
        .ok (r, db') ∧
      r.email = "a@x.com" ∧
      r.queuePosition = getNextQueuePosition emptyDb ∧
      countEmail db' "a@x.com" = countEmail emptyDb "a@x.com" + 1) ∧
    (∃ r db', addToWaitlistWithoutPayment failEnv "a@x.com" "Ann" emptyDb =
        .ok (r, db') ∧
      r.queuePosition = getNextQueuePosition emptyDb ∧
      countEmail db' "a@x.com" = countEmail emptyDb "a@x.com" + 1) :=
  C7_side_effect_failures_absorbed failEnv emptyDb "a@x.com" "Ann"
    (some "NOSUCH") (fun x hx => absurd hx (List.not_mem_nil x)) (by decide)

/-- C8 counterexample: with firstName, queuePosition and referralCode all
absent from the session, handlePaymentSuccess does not fail — it creates
the entry, defaulting the name to "" and the queue position to 1
(payment.ts lines 87-89 only guard the email fields). -/
theorem C8_counterexample :
    (handlePaymentSuccess okEnv c8Session emptyDb).isOk = true ∧
    (handlePaymentSuccess okEnv c8Session emptyDb).map
        (fun p => (p.1.queuePosition, p.1.email, p.2.entries.length)) =
      .ok (1, "a@x.com", 1) := by
  decide

/-- C8 amended: handlePaymentSuccess fails with the missing-metadata error
exactly when the session's customer_email or metadata email is absent or
empty; an absent firstName defaults to the empty string, an absent
queuePosition defaults to 1, an absent referralCode merely skips referral
crediting, and the entry is still created. -/
theorem C8_missing_metadata_amended (env : Env) (s : CheckoutSession)
    (db : Db) :
    (handlePaymentSuccess env s db).isOk = false ↔
      (truthyStr s.customerEmail = false ∨ truthyStr s.metaEmail = false) := by
  cases ht1 : truthyStr s.customerEmail with
  | false =>
    simp only [handlePaymentSuccess, ht1, Bool.not_false, Bool.true_or,
      if_true, reduceIte, Except.isOk, Except.toBool]
    simp
  | true =>
    cases ht2 : truthyStr s.metaEmail with
    | false =>
      simp only [handlePaymentSuccess, ht1, ht2, Bool.not_false,
        Bool.not_true, Bool.or_true, if_true, reduceIte, Except.isOk,
        Except.toBool]
      simp
    | true =>
      simp only [handlePaymentSuccess, ht1, ht2, Bool.not_true,
        Bool.or_self, Bool.false_or, if_false, reduceIte]
      cases hf : db.entries.find? (fun x => x.email == jsOrStr s.metaEmail "")
        with
      | some ex => simp [hf, Except.isOk, Except.toBool]
      | none => simp [hf, Except.isOk, Except.toBool]

/-- C9: generateReferralCode is idempotent. If the entry already carries a
(nonempty) code the call returns it and leaves the store untouched;
otherwise the first call persists the freshly minted uppercase token
and a second call returns that same code and changes nothing. -/
theorem C9_generateReferralCode_idempotent :
    (∀ (env : Env) (db : Db) (i : Nat) (e : WaitlistEntry) (c : String),
      env.refDbAvailable = true →
      db.entries.find? (fun x => x.id == i) = some e →
      e.referralCode = some c → c ≠ "" →
      generateReferralCode env db i = (some c, db)) ∧
    (∀ (env1 env2 : Env) (db : Db) (i : Nat) (e : WaitlistEntry),
      db.entries.find? (fun x => x.id == i) = some e →
      env1.refDbAvailable = true → env1.refUpdateOk = true →
      jsToUpper env1.freshCode ≠ "" →
      env2.refDbAvailable = true →
      (generateReferralCode env2 (generateReferralCode env1 db i).2 i).1 =
        (generateReferralCode env1 db i).1 ∧
      (generateReferralCode env2 (generateReferralCode env1 db i).2 i).2 =
        (generateReferralCode env1 db i).2) := by
  constructor
  · intro env db i e c havail hfind hcode hne
    have htc : truthyStr (some c) = true := by
      simpa [truthyStr] using hne
    simp [generateReferralCode, havail, hfind, hcode, htc]
  · intro env1 env2 db i e hfind h1avail h1upd h1ne h2avail
    cases htr : truthyStr e.referralCode with
    | true =>
      have hg1 : generateReferralCode env1 db i = (e.referralCode, db) := by
        simp [generateReferralCode, h1avail, hfind, htr]
      have hg2 : generateReferralCode env2 db i = (e.referralCode, db) := by
        simp [generateReferralCode, h2avail, hfind, htr]
      rw [hg1, hg2]
      exact ⟨rfl, rfl⟩
    | false =>
      have hg1 : generateReferralCode env1 db i =
          (some (jsToUpper env1.freshCode),
           { db with entries := db.entries.map (fun x =>
               if x.id == i then
                 { x with referralCode := some (jsToUpper env1.freshCode) }
               else x) }) := by
        simp [generateReferralCode, h1avail, hfind, htr, h1upd]
      have hpid : (e.id == i) = true := by
        simpa using List.find?_some hfind
      have hfind1 : ({ db with entries := db.entries.map (fun x =>
          if x.id == i then
            { x with referralCode := some (jsToUpper env1.freshCode) }
          else x) } : Db).entries.find? (fun x => x.id == i) =
          some { e with referralCode := some (jsToUpper env1.freshCode) } := by
        rw [show ({ db with entries := db.entries.map (fun x =>
            if x.id == i then
              { x with referralCode := some (jsToUpper env1.freshCode) }
            else x) } : Db).entries = db.entries.map (fun x =>
            if x.id == i then
              { x with referralCode := some (jsToUpper env1.freshCode) }
            else x) from rfl]
        rw [find?_map_preserved db.entries _ _ (fun x => by split <;> rfl),
          hfind]
        simp [hpid]
        intro hne0
        exact absurd (by simpa using hpid) hne0
      have htr1 : truthyStr (some (jsToUpper env1.freshCode)) = true := by
        simpa [truthyStr] using h1ne
      have hg2 : generateReferralCode env2
          (generateReferralCode env1 db i).2 i =
          (some (jsToUpper env1.freshCode), (generateReferralCode env1 db i).2) := by
        rw [hg1]
        unfold generateReferralCode
        rw [if_neg (by simp [h2avail])]
        rw [hfind1]
        simp [htr1]
      rw [hg2, hg1]
      exact ⟨rfl, rfl⟩

theorem C9_generateReferralCode_idempotent_witness :
    generateReferralCode okEnv c2Db 1 = (some "AB12CD34", c2Db) ∧
    ((generateReferralCode okEnv (generateReferralCode okEnv c9Db 1).2 1).1 =
      (generateReferralCode okEnv c9Db 1).1 ∧
     (generateReferralCode okEnv (generateReferralCode okEnv c9Db 1).2 1).2 =
      (generateReferralCode okEnv c9Db 1).2) := by
  obtain ⟨ha, hb⟩ := C9_generateReferralCode_idempotent
  refine ⟨?_, ?_⟩
  · exact ha okEnv c2Db 1 c2Entry "AB12CD34" (by decide) (by decide)
      (by decide) (by decide)
  · exact hb okEnv okEnv c9Db 1 c9Entry (by decide) (by decide) (by decide)
      (by decide) (by decide)

theorem generateReferralCode_db_unavailable (env : Env) (db : Db) (i : Nat)
    (h : env.refDbAvailable = false) :
    generateReferralCode env db i = (none, db) := by
  simp [generateReferralCode, h]

theorem generateReferralCode_update_fails (env : Env) (db : Db) (i : Nat)
    (h : env.refUpdateOk = false)
    (hnc : ∀ e, db.entries.find? (fun x => x.id == i) = some e →
      truthyStr e.referralCode = false) :
    generateReferralCode env db i = (none, db) := by
  by_cases ha : env.refDbAvailable = false
  · simp [generateReferralCode, ha]
  · cases hf : db.entries.find? (fun x => x.id == i) with
    | none => simp [generateReferralCode, ha, hf, h]
    | some e => simp [generateReferralCode, ha, hf, hnc e hf, h]

theorem find?_email_map_entry (l : List WaitlistEntry)
    (g : WaitlistEntry → WaitlistEntry)
    (hg : ∀ y, (g y).email = y.email) (e0 : String) (x : WaitlistEntry)
    (hx : l.find? (fun y => y.email == e0) = some x) :
    (l.map g).find? (fun y => y.email == e0) = some (g x) := by
  rw [find?_map_preserved l g _ (fun y => by
    simp only [Function.comp_apply, hg y]), hx]
  rfl

theorem applyReferral_find_email (env : Env) (db : Db) (c em e0 : String)
    (uid : Nat) (x : WaitlistEntry)
    (hx : db.entries.find? (fun y => y.email == e0) = some x) :
    ∃ x', (applyReferral env db c em uid).entries.find?
        (fun y => y.email == e0) = some x' ∧
      x'.email = x.email ∧ x'.referralCode = x.referralCode := by
  unfold applyReferral
  split
  · next res db' hr =>
    unfold recordReferral at hr
    cases hv : verifyReferralCode db c with
    | none => simp only [hv, reduceCtorEq] at hr
    | some referrer =>
      simp only [hv] at hr
      cases hf : db.referrals.find? (fun r =>
          r.referrerId == referrer.id && r.referredEmail == em) with
      | some r0 =>
        simp only [hf, Except.ok.injEq, Prod.mk.injEq] at hr
        obtain ⟨hres, hdb⟩ := hr
        subst hdb
        exact ⟨x, hx, rfl, rfl⟩
      | none =>
        simp only [hf, Except.ok.injEq, Prod.mk.injEq] at hr
        obtain ⟨hres, hdb⟩ := hr
        subst hdb
        exact ⟨_, find?_email_map_entry db.entries _
          (fun y => by split <;> rfl) e0 x hx,
          by split <;> rfl, by split <;> rfl⟩
  · next msg hr => exact ⟨x, hx, rfl, rfl⟩

theorem find?_email_append_self (l : List WaitlistEntry) (x : WaitlistEntry)
    (hfr : ∀ y ∈ l, y.email ≠ x.email) :
    (l ++ [x]).find? (fun y => y.email == x.email) = some x := by
  rw [List.find?_append, find?_email_none l x.email hfr]
  simp

/-- C10: when generateReferralCode cannot persist a code — the referral
store handle is unavailable, or the UPDATE errors (for an entry without an
existing code) — it returns null instead of raising; and with the referral
store down both signup paths still succeed, return the empty string in the
referralCode field, and leave the created entry without a referral code. -/
theorem C10_minting_failure_absorbed :
    (∀ (env : Env) (db : Db) (i : Nat), env.refDbAvailable = false →
      generateReferralCode env db i = (none, db)) ∧
    (∀ (env : Env) (db : Db) (i : Nat), env.refUpdateOk = false →
      (∀ e, db.entries.find? (fun x => x.id == i) = some e →
        truthyStr e.referralCode = false) →
      generateReferralCode env db i = (none, db)) ∧
    (∀ (env : Env) (db : Db) (e f : String) (rc : Option String),
      (∀ x ∈ db.entries, x.email ≠ e) → e ≠ "" →
      env.refDbAvailable = false →
      ∃ r db', paidSignup env e f rc db = .ok (r, db') ∧
        r.referralCode = "" ∧
        ∃ x', db'.entries.find? (fun y => y.email == e) = some x' ∧
          x'.email = e ∧ x'.referralCode = none) ∧
    (∀ (env : Env) (db : Db) (e f : String),
      (∀ x ∈ db.entries, x.email ≠ e) →
      env.refDbAvailable = false →
      ∃ r db', addToWaitlistWithoutPayment env e f db = .ok (r, db') ∧
        r.referralCode = "" ∧
        ∃ x', db'.entries.find? (fun y => y.email == e) = some x' ∧
          x'.email = e ∧ x'.referralCode = none) := by
  refine ⟨generateReferralCode_db_unavailable,
    generateReferralCode_update_fails, ?_, ?_⟩
  · intro env db e f rc hfresh he hfail
    have hcond : (!(truthyStr (some e)) || !(truthyStr (some e))) = false := by
      simp [truthyStr, he]
    have hjs : jsOrStr (some e) "" = e := by
      simp [jsOrStr, he]
    have hgen : ∀ (d : Db) (i : Nat), generateReferralCode env d i = (none, d) :=
      fun d i => generateReferralCode_db_unavailable env d i hfail
    simp only [paidSignup, createCheckoutSession, handlePaymentSuccess, hcond,
      Bool.false_eq_true, if_false, hjs, Option.getD_some]
    rw [find?_email_none db.entries e hfresh]
    simp only [hgen, Option.getD_none]
    cases hju : jsOrUndef (some (jsOrStr rc "")) with
    | none =>
      simp only [hju]
      refine ⟨_, _, rfl, rfl, ?_⟩
      refine ⟨_, find?_email_append_self db.entries
        ⟨db.nextEntryId, e, jsOrStr (some f) "", getNextQueuePosition db,
         .completed, none, false, 0, env.now⟩ hfresh, rfl, rfl⟩
    | some code =>
      simp only [hju]
      obtain ⟨x', hx', hxe, hxc⟩ := applyReferral_find_email env
        { db with
          entries := db.entries ++
            [⟨db.nextEntryId, e, jsOrStr (some f) "",
              getNextQueuePosition db, .completed, none, false, 0, env.now⟩]
          nextEntryId := db.nextEntryId + 1 }
        code e e (jsOrNat db.nextEntryId (getNextQueuePosition db))
        ⟨db.nextEntryId, e, jsOrStr (some f) "", getNextQueuePosition db,
         .completed, none, false, 0, env.now⟩
        (find?_email_append_self db.entries
          ⟨db.nextEntryId, e, jsOrStr (some f) "", getNextQueuePosition db,
           .completed, none, false, 0, env.now⟩ hfresh)
      exact ⟨_, _, rfl, rfl, x', hx', hxe, hxc⟩
  · intro env db e f hfresh hfail
    have hgen : ∀ (d : Db) (i : Nat), generateReferralCode env d i = (none, d) :=
      fun d i => generateReferralCode_db_unavailable env d i hfail
    simp only [addToWaitlistWithoutPayment]
    rw [find?_email_none db.entries e hfresh]
    simp only [hgen, Option.getD_none]
    refine ⟨_, _, rfl, rfl, ?_⟩
    refine ⟨_, find?_email_append_self db.entries
      ⟨db.nextEntryId, e, f, getNextQueuePosition db,
       .skipped, none, false, 0, env.now⟩ hfresh, rfl, rfl⟩

theorem C10_minting_failure_absorbed_witness :
    generateReferralCode failEnv c9Db 1 = (none, c9Db) ∧
    generateReferralCode halfEnv c9Db 1 = (none, c9Db) ∧
    (∃ r db', paidSignup failEnv "a@x.com" "Ann" (some "NOSUCH") emptyDb =
        .ok (r, db') ∧
      r.referralCode = "" ∧
      ∃ x', db'.entries.find? (fun y => y.email == "a@x.com") = some x' ∧
        x'.email = "a@x.com" ∧ x'.referralCode = none) ∧
    (∃ r db', addToWaitlistWithoutPayment failEnv "a@x.com" "Ann" emptyDb =
        .ok (r, db') ∧
      r.referralCode = "" ∧
      ∃ x', db'.entries.find? (fun y => y.email == "a@x.com") = some x' ∧
        x'.email = "a@x.com" ∧ x'.referralCode = none) := by
  obtain ⟨ha, hb, hc, hd⟩ := C10_minting_failure_absorbed
  refine ⟨?_, ?_, ?_, ?_⟩
  · exact ha failEnv c9Db 1 (by decide)
  · refine hb halfEnv c9Db 1 (by decide) ?_
    intro e he
    have h0 : c9Db.entries.find? (fun x => x.id == 1) = some c9Entry := by
      decide
    rw [h0] at he
    injection he with h1
    subst h1
    decide
  · exact hc failEnv emptyDb "a@x.com" "Ann" (some "NOSUCH")
      (fun x hx => absurd hx (List.not_mem_nil x)) (by decide) (by decide)
  · exact hd failEnv emptyDb "a@x.com" "Ann"
      (fun x hx => absurd hx (List.not_mem_nil x)) (by decide)
